import Mathlib

/-!
Shallow embedding of the weekly training dashboard core: heart rate zone
classification, session normalization, weekly aggregation, Strava sync
reconciliation, and persistence export and import.

Modelling conventions:
- JavaScript numbers are modelled as rationals.  The non finite values
  (NaN, Infinity) that clampNonNeg defends against are exactly the values
  absorbed into the default branches of the Option typed raw records, so
  clampNonNeg reduces to a clamp at zero on rationals.
- ISO date strings (YYYY-MM-DD) are modelled by their day numbers as
  integers: lexicographic comparison of such fixed width strings agrees
  with the numeric order of day numbers, and addDaysISO becomes integer
  addition.
- Strava native ids are numbers; the String and Number conversions the
  code applies to them form an exact codec, so externalId carries the
  numeric id directly.
- Math.round x is modelled as the floor of x + 1/2, which is exactly the
  JavaScript rounding rule (half goes toward positive infinity).
-/

/-- The five canonical activity types of the dashboard. -/
inductive ActivityType
  | Run
  | Lift
  | Swim
  | Bike
  | Cardio
deriving DecidableEq

/-- Session provenance: entered by hand or imported from Strava. -/
inductive Source
  | manual
  | strava
deriving DecidableEq

/-- Canonical session record, mirroring the TypeScript `Session` type.
`source` and `externalId` are optional in the TypeScript type, hence the
Option wrappers. -/
structure Session where
  id : String
  date : Int
  type : ActivityType
  durationMin : ℚ
  z1Min : ℚ
  z2Min : ℚ
  z3Min : ℚ
  z4Min : ℚ
  z5Min : ℚ
  notes : String
  source : Option Source
  externalId : Option Int
deriving DecidableEq

/-- Heart rate zone thresholds (lower bounds for Z2 to Z5). -/
structure HrZones where
  z2Low : ℚ
  z3Low : ℚ
  z4Low : ℚ
  z5Low : ℚ
deriving DecidableEq

/-- DEFAULT_HR_ZONES from the source. -/
def DEFAULT_HR_ZONES : HrZones := { z2Low := 130, z3Low := 150, z4Low := 165, z5Low := 180 }

/-- Models `uid()`.  The source generates a random collision resistant id
from Math.random and Date.now; no claim depends on the generated value, so
the generator is modelled as a fixed fresh string. -/
def uid : String := "generated-id"

/-- Models `new Date().toISOString().slice(0, 10)`: the current calendar
day.  No claim depends on its value. -/
def currentDay : Int := 0

/-- Math.max of two rationals, written so that the kernel can evaluate it
(equal to max, see qmax_eq_max below). -/
def qmax (a b : ℚ) : ℚ := if a ≤ b then b else a

/-- clampNonNeg from the source: non finite values are already absorbed by
the Option defaults, so on rationals this is a clamp at zero. -/
def clampNonNeg (n : ℚ) : ℚ := qmax 0 n

/-- addDaysISO on day numbers is integer addition. -/
def addDaysISO (iso : Int) (days : Int) : Int := iso + days

/-- withinWeek from the source: `dateISO >= start && dateISO < end` with
`end = addDaysISO(start, 7)`, on day numbers. -/
def withinWeek (dateISO : Int) (weekStartISO : Int) : Prop :=
  weekStartISO ≤ dateISO ∧ dateISO < addDaysISO weekStartISO 7

instance (d ws : Int) : Decidable (withinWeek d ws) :=
  inferInstanceAs (Decidable (ws ≤ d ∧ d < addDaysISO ws 7))

/-- Math.round, modelled as floor of x + 1/2 (computed with Rat.floor so
that the kernel can evaluate it). -/
def jsRound (q : ℚ) : ℤ := (q + 1 / 2).floor

/-- JavaScript toLowerCase on one character (ASCII letters; the activity
tags the dashboard compares are ASCII). -/
def lowerChar (c : Char) : Char :=
  if 65 ≤ c.toNat ∧ c.toNat ≤ 90 then Char.ofNat (c.toNat + 32) else c

/-- JavaScript String.prototype.toLowerCase, kernel computable. -/
def strLower (s : String) : String := ⟨s.toList.map lowerChar⟩

/-- Character list pattern match at the head. -/
def leadsWith : List Char → List Char → Bool
  | [], _ => true
  | _ :: _, [] => false
  | p :: ps, c :: cs => p = c && leadsWith ps cs

/-- Character list substring occurrence. -/
def occursIn (pat : List Char) : List Char → Bool
  | [] => leadsWith pat []
  | c :: cs => leadsWith pat (c :: cs) || occursIn pat cs

/-- Substring test used to model `String.prototype.includes`. -/
def strContains (s pat : String) : Bool := occursIn pat.toList s.toList

/-- normalizeTypeToActivityType from the source (case insensitive synonym
mapping with Cardio as the default). -/
def normalizeTypeToActivityType (input : String) : ActivityType :=
  let t := strLower input
  if t = "run" then .Run
  else if t = "lift" ∨ t = "strength" ∨ t = "weight" ∨ t = "weights" then .Lift
  else if t = "swim" then .Swim
  else if t = "bike" ∨ t = "ride" ∨ t = "cycling" then .Bike
  else .Cardio

/-- mapStravaToActivityType from the source: substring matching on
`sport_type || type || ""` lowered. -/
def mapStravaToActivityType (stravaType : String) (sportType : Option String) : ActivityType :=
  let t0 := match sportType with
    | some s => if s = "" then stravaType else s
    | none => stravaType
  let t := strLower t0
  if strContains t "run" then .Run
  else if strContains t "swim" then .Swim
  else if strContains t "ride" || strContains t "bike" || strContains t "cycling" then .Bike
  else if strContains t "weight" || strContains t "strength" then .Lift
  else .Cardio

/-- The TypeScript string value of an ActivityType member, used when a
Session value is fed back through normalizeSession. -/
def activityTypeToString : ActivityType → String
  | .Run => "Run"
  | .Lift => "Lift"
  | .Swim => "Swim"
  | .Bike => "Bike"
  | .Cardio => "Cardio"

/-- Partial, untrusted session payload: `Partial<Session>` in the source.
The raw `type` field is an arbitrary string; the raw `source` field is
either the strava tag, the manual tag, or absent (any other junk value
behaves like absent under the strict equality test of the source). -/
structure RawSession where
  id : Option String
  date : Option Int
  type : Option String
  durationMin : Option ℚ
  z1Min : Option ℚ
  z2Min : Option ℚ
  z3Min : Option ℚ
  z4Min : Option ℚ
  z5Min : Option ℚ
  notes : Option String
  source : Option Source
  externalId : Option Int
deriving DecidableEq

/-- normalizeSession from the source: coerces any partial record into a
valid Session, field by field. -/
def normalizeSession (s : RawSession) : Session :=
  { id := s.id.getD uid
  , date := s.date.getD currentDay
  , type := normalizeTypeToActivityType (s.type.getD "")
  , durationMin := clampNonNeg (s.durationMin.getD 0)
  , z1Min := clampNonNeg (s.z1Min.getD 0)
  , z2Min := clampNonNeg (s.z2Min.getD 0)
  , z3Min := clampNonNeg (s.z3Min.getD 0)
  , z4Min := clampNonNeg (s.z4Min.getD 0)
  , z5Min := clampNonNeg (s.z5Min.getD 0)
  , notes := s.notes.getD ""
  , source := if s.source = some Source.strava then some Source.strava else some Source.manual
  , externalId := s.externalId }

/-- Spreading a full Session back into a raw payload (the `{...s}` idiom):
every field is present. -/
def Session.toRaw (s : Session) : RawSession :=
  { id := some s.id
  , date := some s.date
  , type := some (activityTypeToString s.type)
  , durationMin := some s.durationMin
  , z1Min := some s.z1Min
  , z2Min := some s.z2Min
  , z3Min := some s.z3Min
  , z4Min := some s.z4Min
  , z5Min := some s.z5Min
  , notes := some s.notes
  , source := s.source
  , externalId := s.externalId }

-- Zone classification ------------------------------------------------------

/-- Strava streams payload: both series optional. -/
structure StravaStreamsResponse where
  time : Option (List ℚ)
  heartrate : Option (List ℚ)
deriving DecidableEq

/-- Per zone accumulated seconds (the loop state of the classifier). -/
structure ZoneSecs where
  z1 : ℚ
  z2 : ℚ
  z3 : ℚ
  z4 : ℚ
  z5 : ℚ
deriving DecidableEq

/-- A heart rate zone. -/
inductive Zone
  | Z1
  | Z2
  | Z3
  | Z4
  | Z5
deriving DecidableEq

/-- The descending threshold comparison in the loop body of
computeZoneMinutesFromStreams (bpm is the sample at the later index). -/
def classifyBpm (zones : HrZones) (bpm : ℚ) : Zone :=
  if zones.z5Low ≤ bpm then .Z5
  else if zones.z4Low ≤ bpm then .Z4
  else if zones.z3Low ≤ bpm then .Z3
  else if zones.z2Low ≤ bpm then .Z2
  else .Z1

/-- Accumulate dt seconds into the matched zone. -/
def addZone : Zone → ℚ → ZoneSecs → ZoneSecs
  | .Z1, dt, acc => { acc with z1 := acc.z1 + dt }
  | .Z2, dt, acc => { acc with z2 := acc.z2 + dt }
  | .Z3, dt, acc => { acc with z3 := acc.z3 + dt }
  | .Z4, dt, acc => { acc with z4 := acc.z4 + dt }
  | .Z5, dt, acc => { acc with z5 := acc.z5 + dt }

/-- The classifier loop from index 1 on: tprev is the previous timestamp,
the two lists are the remaining timestamps and heart rates.  Each step
charges `max 0 (t - tprev)` to the zone of the heart rate at the later
sample. -/
def zoneSecsFrom (zones : HrZones) : ℚ → List ℚ → List ℚ → ZoneSecs
  | _, [], _ => ⟨0, 0, 0, 0, 0⟩
  | _, _ :: _, [] => ⟨0, 0, 0, 0, 0⟩
  | tprev, t :: ts, bpm :: bs =>
    addZone (classifyBpm zones bpm) (qmax 0 (t - tprev)) (zoneSecsFrom zones t ts bs)

/-- Accumulated per zone seconds of the whole stream (the loop of
computeZoneMinutesFromStreams, starting at index 1). -/
def zoneSecs (zones : HrZones) (time hr : List ℚ) : ZoneSecs :=
  match time, hr with
  | t0 :: ts, _ :: bs => zoneSecsFrom zones t0 ts bs
  | _, _ => ⟨0, 0, 0, 0, 0⟩

/-- Result of computeZoneMinutesFromStreams: per zone whole minutes and the
hasStreams flag that distinguishes no data from zero effort. -/
structure ZoneComputation where
  z1Min : ℤ
  z2Min : ℤ
  z3Min : ℤ
  z4Min : ℤ
  z5Min : ℤ
  hasStreams : Bool
deriving DecidableEq

/-- computeZoneMinutesFromStreams from the source. -/
def computeZoneMinutesFromStreams (streams : StravaStreamsResponse) (zones : HrZones) :
    ZoneComputation :=
  match streams.heartrate, streams.time with
  | some hr, some time =>
    if hr.length < 2 ∨ time.length < 2 ∨ hr.length ≠ time.length then
      ⟨0, 0, 0, 0, 0, false⟩
    else
      let z := zoneSecs zones time hr
      ⟨jsRound (z.z1 / 60), jsRound (z.z2 / 60), jsRound (z.z3 / 60),
        jsRound (z.z4 / 60), jsRound (z.z5 / 60), true⟩
  | _, _ => ⟨0, 0, 0, 0, 0, false⟩

/-- Total accumulated seconds across the five zones. -/
def sumZoneSecs (z : ZoneSecs) : ℚ := z.z1 + z.z2 + z.z3 + z.z4 + z.z5

/-- Follows the words of the spec: the sum of dt = max(0, t i - t (i-1))
over all consecutive pairs of the time stream.  This is the spec side of
the conservation claim, to be compared with the accumulation done by the
source loop. -/
def specDtSum : List ℚ → ℚ
  | t0 :: t1 :: ts => qmax 0 (t1 - t0) + specDtSum (t1 :: ts)
  | _ => 0

-- Weekly aggregation -------------------------------------------------------

/-- getZonedMinutes from the source. -/
def getZonedMinutes (s : Session) : ℚ :=
  s.z1Min + s.z2Min + s.z3Min + s.z4Min + s.z5Min

/-- getUnzonedMinutes from the source. -/
def getUnzonedMinutes (s : Session) : ℚ :=
  qmax 0 (s.durationMin - getZonedMinutes s)

/-- The five weekly zone buckets. -/
structure WeekZoneTotals where
  z1 : ℚ
  z2 : ℚ
  z3 : ℚ
  z4 : ℚ
  z5 : ℚ
deriving DecidableEq

/-- weekZoneTotalsAdjustedToZ1 from the source: the for loop accumulation,
written as structural recursion (addition is commutative and associative,
so the fold direction does not change the totals). -/
def weekZoneTotalsAdjustedToZ1 : List Session → WeekZoneTotals
  | [] => ⟨0, 0, 0, 0, 0⟩
  | s :: rest =>
    let t := weekZoneTotalsAdjustedToZ1 rest
    ⟨s.z1Min + getUnzonedMinutes s + t.z1, s.z2Min + t.z2, s.z3Min + t.z3,
      s.z4Min + t.z4, s.z5Min + t.z5⟩

/-- Sum of the five reported weekly buckets. -/
def sumWeekZoneTotals (t : WeekZoneTotals) : ℚ := t.z1 + t.z2 + t.z3 + t.z4 + t.z5

-- The week view sort -------------------------------------------------------

/-- The comparator passed to Array.prototype.sort in weekSessions:
`(a, b) => (a.date < b.date ? -1 : 1)`.  Note it never returns 0. -/
def dateCmp (a b : Session) : Int := if a.date < b.date then -1 else 1

/-- Fuelled merge of two runs, taking the left element exactly when the
comparator reports it not greater (comparator value at most 0), as a
JavaScript merge sort does.  Fuel at least the combined length makes the
fuel case unreachable. -/
def jsMergeGo (cmp : Session → Session → Int) : Nat → List Session → List Session → List Session
  | 0, xs, ys => xs ++ ys
  | _ + 1, [], ys => ys
  | _ + 1, x :: xs, [] => x :: xs
  | fuel + 1, x :: xs, y :: ys =>
    if cmp x y ≤ 0 then x :: jsMergeGo cmp fuel xs (y :: ys)
    else y :: jsMergeGo cmp fuel (x :: xs) ys

/-- Merge with enough fuel. -/
def jsMerge (cmp : Session → Session → Int) (xs ys : List Session) : List Session :=
  jsMergeGo cmp (xs.length + ys.length) xs ys

/-- Fuelled top down merge sort, modelling Array.prototype.sort with the
given comparator.  The ECMAScript specification leaves the order
implementation defined when the comparator is inconsistent (as dateCmp is
on equal dates); this model, like the engine sorts, puts the right run
element first whenever the comparator reports the left element greater. -/
def jsSortGo (cmp : Session → Session → Int) : Nat → List Session → List Session
  | 0, l => l
  | fuel + 1, l =>
    match l with
    | [] => []
    | [a] => [a]
    | a :: b :: rest =>
      let l' := a :: b :: rest
      let n := l'.length / 2
      jsMerge cmp (jsSortGo cmp fuel (l'.take n)) (jsSortGo cmp fuel (l'.drop n))

/-- Array.prototype.sort with a comparator. -/
def jsSort (cmp : Session → Session → Int) (l : List Session) : List Session :=
  jsSortGo cmp l.length l

/-- weekSessions from the source: filter to the window, then sort with
dateCmp. -/
def weekSessions (sessions : List Session) (weekStartISO : Int) : List Session :=
  jsSort dateCmp (sessions.filter fun s => decide (withinWeek s.date weekStartISO))

-- Strava sync --------------------------------------------------------------

/-- Provider activity record (the fields the sync reads).  start_day is
the day number of the UTC date part of start_date. -/
structure StravaActivity where
  id : Int
  name : String
  type : String
  sport_type : Option String
  start_day : Int
  moving_time : Option ℚ
  elapsed_time : Option ℚ
  average_heartrate : Option ℚ
  max_heartrate : Option ℚ
deriving DecidableEq

/-- The base normalized session built from one fetched activity in
syncFromStravaForWeek (before zone join). -/
def stravaBaseSession (a : StravaActivity) : Session :=
  normalizeSession
    { id := some ("strava-" ++ toString a.id)
    , date := some a.start_day
    , type := some (activityTypeToString (mapStravaToActivityType a.type a.sport_type))
    , durationMin := some ((jsRound ((a.moving_time.getD (a.elapsed_time.getD 0)) / 60) : ℤ) : ℚ)
    , z1Min := none
    , z2Min := none
    , z3Min := none
    , z4Min := none
    , z5Min := none
    , notes := some (if a.name = "" then "" else a.name)
    , source := some Source.strava
    , externalId := some a.id }

/-- The activities that report any heart rate summary statistic. -/
def withHr (activities : List StravaActivity) : List StravaActivity :=
  activities.filter fun a => a.average_heartrate.isSome || a.max_heartrate.isSome

/-- The bounded prefix (cap 25) selected for detailed zone computation. -/
def selectedActivities (activities : List StravaActivity) : List StravaActivity :=
  (withHr activities).take (min (withHr activities).length 25)

/-- Map.prototype.get on an association list whose most recent insertions
are at the front. -/
def mapGet (k : Int) : List (Int × ZoneComputation) → Option ZoneComputation
  | [] => none
  | (k', v) :: rest => if k = k' then some v else mapGet k rest

/-- The per activity stream loop of syncFromStravaForWeek: for each
selected activity, fetch its streams; a failed fetch (modelled as none) is
swallowed and the loop continues; a successful fetch contributes an entry
exactly when the classification reports hasStreams.  Later entries are
placed in front so that mapGet sees the latest insertion first, matching
Map.prototype.set semantics. -/
def buildZoneMap (fetchStream : Int → Option StravaStreamsResponse) (zones : HrZones) :
    List StravaActivity → List (Int × ZoneComputation)
  | [] => []
  | a :: rest =>
    buildZoneMap fetchStream zones rest ++
      (match fetchStream a.id with
        | none => []
        | some st =>
          let z := computeZoneMinutesFromStreams st zones
          if z.hasStreams then [(a.id, z)] else [])

/-- The zone map entry the loop produces for one activity (a restatement
of one loop iteration, used in theorem statements). -/
def streamZonesFor (fetchStream : Int → Option StravaStreamsResponse) (zones : HrZones)
    (a : StravaActivity) : Option ZoneComputation :=
  match fetchStream a.id with
  | none => none
  | some st =>
    let z := computeZoneMinutesFromStreams st zones
    if z.hasStreams then some z else none

/-- Overriding the zone fields of a raw payload with a computed zone
record (the `{...s, ...z}` spread). -/
def withZoneOverride (r : RawSession) (z : ZoneComputation) : RawSession :=
  { r with
      z1Min := some (z.z1Min : ℚ)
    , z2Min := some (z.z2Min : ℚ)
    , z3Min := some (z.z3Min : ℚ)
    , z4Min := some (z.z4Min : ℚ)
    , z5Min := some (z.z5Min : ℚ) }

/-- The join step: look up computed zones by the numeric external id and
renormalize the overridden record; sessions without an entry pass through
unchanged. -/
def zoneJoin (zoneMap : List (Int × ZoneComputation)) (s : Session) : Session :=
  match mapGet (s.externalId.getD 0) zoneMap with
  | none => s
  | some z => normalizeSession (withZoneOverride s.toRaw z)

/-- mergedSessions in syncFromStravaForWeek: the freshly fetched,
normalized and classified set. -/
def syncMergedSessions (activities : List StravaActivity)
    (fetchStream : Int → Option StravaStreamsResponse) (zones : HrZones) : List Session :=
  (activities.map stravaBaseSession).map
    (zoneJoin (buildZoneMap fetchStream zones (selectedActivities activities)))

/-- The merge into the persisted collection: keep every previous session
that is not a Strava session dated in the synced window, and prepend the
fresh set. -/
def syncFromStravaForWeek (activities : List StravaActivity)
    (fetchStream : Int → Option StravaStreamsResponse) (zones : HrZones)
    (weekStartISO : Int) (prev : List Session) : List Session :=
  syncMergedSessions activities fetchStream zones ++
    prev.filter fun p =>
      decide (p.source ≠ some Source.strava ∨ ¬ withinWeek p.date weekStartISO)

/-- A session that the sync of a given window considers its own: Strava
sourced and dated inside the window. -/
def stravaSessionInWeek (weekStartISO : Int) (s : Session) : Prop :=
  s.source = some Source.strava ∧ withinWeek s.date weekStartISO

instance (ws : Int) (s : Session) : Decidable (stravaSessionInWeek ws s) :=
  inferInstanceAs (Decidable (_ ∧ _))

-- Persistence --------------------------------------------------------------

/-- Connection status blob. -/
structure StravaStatus where
  connected : Bool
  athleteName : Option String
deriving DecidableEq

/-- Raw thresholds as read from a document. -/
structure RawHrZones where
  z2Low : Option ℚ
  z3Low : Option ℚ
  z4Low : Option ℚ
  z5Low : Option ℚ
deriving DecidableEq

/-- The transportable document shape: every top level field may be absent
or malformed, which reads as none. -/
structure PersistedDoc where
  weekStartISO : Option Int
  sessions : Option (List RawSession)
  hrZones : Option RawHrZones
  strava : Option StravaStatus
deriving DecidableEq

/-- The application state held by the dashboard component. -/
structure AppState where
  weekStartISO : Int
  sessions : List Session
  hrZones : HrZones
  strava : StravaStatus
deriving DecidableEq

/-- Serializing thresholds: every field present. -/
def HrZones.toRaw (z : HrZones) : RawHrZones :=
  ⟨some z.z2Low, some z.z3Low, some z.z4Low, some z.z5Low⟩

/-- exportData from the source: the downloaded document carries the state
verbatim (sessions serialize with every present field kept). -/
def exportData (st : AppState) : PersistedDoc :=
  { weekStartISO := some st.weekStartISO
  , sessions := some (st.sessions.map Session.toRaw)
  , hrZones := some st.hrZones.toRaw
  , strava := some st.strava }

/-- importData from the source: each field of the parsed document is taken
when present and well shaped, otherwise the current state value is kept;
sessions are renormalized entry by entry. -/
def importData (doc : PersistedDoc) (cur : AppState) : AppState :=
  { weekStartISO := doc.weekStartISO.getD cur.weekStartISO
  , sessions :=
      match doc.sessions with
      | some raws => raws.map normalizeSession
      | none => cur.sessions
  , hrZones :=
      match doc.hrZones with
      | some rz =>
        { z2Low := rz.z2Low.getD cur.hrZones.z2Low
        , z3Low := rz.z3Low.getD cur.hrZones.z3Low
        , z4Low := rz.z4Low.getD cur.hrZones.z4Low
        , z5Low := rz.z5Low.getD cur.hrZones.z5Low }
      | none => cur.hrZones
  , strava :=
      match doc.strava with
      | some st => { connected := st.connected, athleteName := st.athleteName }
      | none => cur.strava }

/-- The sessions the application itself ever holds: all numeric fields
nonnegative and the source tag present (every construction path goes
through normalizeSession, whose outputs satisfy this). -/
def IsNormalizedSession (s : Session) : Prop :=
  0 ≤ s.durationMin ∧ 0 ≤ s.z1Min ∧ 0 ≤ s.z2Min ∧ 0 ≤ s.z3Min ∧ 0 ≤ s.z4Min ∧
    0 ≤ s.z5Min ∧ s.source.isSome = true

instance (s : Session) : Decidable (IsNormalizedSession s) :=
  inferInstanceAs (Decidable (_ ∧ _ ∧ _ ∧ _ ∧ _ ∧ _ ∧ _))

/-- Tail form of specDtSum: the dt sum of the remaining timestamps given
the previous timestamp (matches the shape of the classifier loop). -/
def specDtSumFrom (tprev : ℚ) : List ℚ → ℚ
  | [] => 0
  | t :: ts => qmax 0 (t - tprev) + specDtSumFrom t ts

/-- Demonstration stream used by concrete witnesses. -/
def demoStreams : StravaStreamsResponse := ⟨some [0, 60, 120], some [100, 160, 190]⟩

/-- Demonstration activity whose stream fetch fails in demoFetch. -/
def demoActivityA : StravaActivity := ⟨1, "A", "Run", none, 2, some 1800, none, some 150, none⟩

/-- Demonstration activity whose stream fetch succeeds in demoFetch. -/
def demoActivityB : StravaActivity := ⟨2, "B", "Ride", none, 3, some 600, none, some 140, none⟩

/-- Demonstration fetch outcome: activity 1 fails, every other id returns
demoStreams. -/
def demoFetch : Int → Option StravaStreamsResponse :=
  fun i => if i = 1 then none else some demoStreams

-- Bridge lemmas ------------------------------------------------------------

theorem qmax_eq_max (a b : ℚ) : qmax a b = max a b := by
  rw [qmax, max_def]

theorem jsRound_eq_floor (q : ℚ) : jsRound q = ⌊q + 1 / 2⌋ := by
  rw [jsRound, Rat.floor_def', Rat.floor_def]

theorem jsRound_nonneg {q : ℚ} (h : 0 ≤ q) : 0 ≤ jsRound q := by
  rw [jsRound_eq_floor]
  exact Int.le_floor.mpr (by push_cast; linarith)

-- Zone time conservation (C2) ----------------------------------------------

theorem sumZoneSecs_addZone (c : Zone) (dt : ℚ) (acc : ZoneSecs) :
    sumZoneSecs (addZone c dt acc) = dt + sumZoneSecs acc := by
  cases c <;> simp [addZone, sumZoneSecs] <;> ring

theorem sumZoneSecs_zoneSecsFrom (zones : HrZones) :
    ∀ (ts bs : List ℚ) (tprev : ℚ), ts.length = bs.length →
      sumZoneSecs (zoneSecsFrom zones tprev ts bs) = specDtSumFrom tprev ts := by
  intro ts
  induction ts with
  | nil =>
    intro bs tprev _
    simp [zoneSecsFrom, specDtSumFrom, sumZoneSecs]
  | cons t ts ih =>
    intro bs tprev h
    cases bs with
    | nil => simp at h
    | cons b bs =>
      simp only [zoneSecsFrom, sumZoneSecs_addZone, specDtSumFrom]
      rw [ih bs t (by simpa using h)]

theorem specDtSum_cons (t0 : ℚ) (ts : List ℚ) :
    specDtSum (t0 :: ts) = specDtSumFrom t0 ts := by
  induction ts generalizing t0 with
  | nil => simp [specDtSum, specDtSumFrom]
  | cons t1 ts ih => rw [specDtSum, specDtSumFrom, ih]

/-- Claim C2: for every pair of equal length numeric sequences (time,
heartrate) with length at least 2 and any thresholds, the sum over the
five zones of the accumulated zone seconds equals exactly the sum of
dt = max(0, t i - t (i-1)) over all consecutive sample pairs: each
elapsed interval lands in exactly one zone and no time is dropped or
counted twice. -/
theorem C2_zone_seconds_conserve_time (time hr : List ℚ) (zones : HrZones)
    (hlen : 2 ≤ time.length) (heq : time.length = hr.length) :
    sumZoneSecs (zoneSecs zones time hr) = specDtSum time := by
  cases time with
  | nil => simp at hlen
  | cons t0 ts =>
    cases hr with
    | nil => simp at heq
    | cons b bs =>
      rw [show zoneSecs zones (t0 :: ts) (b :: bs) = zoneSecsFrom zones t0 ts bs from rfl,
        specDtSum_cons]
      exact sumZoneSecs_zoneSecsFrom zones ts bs t0 (by simpa using heq)

theorem C2_zone_seconds_conserve_time_witness :
    2 ≤ ([0, 60, 120] : List ℚ).length ∧
      sumZoneSecs (zoneSecs DEFAULT_HR_ZONES [0, 60, 120] [100, 160, 190])
        = specDtSum [0, 60, 120] :=
  ⟨by decide,
    C2_zone_seconds_conserve_time [0, 60, 120] [100, 160, 190] DEFAULT_HR_ZONES
      (by decide) (by decide)⟩

-- Classification scenario (C3) ---------------------------------------------

/-- Claim C3 counterexample: on the stream time = [0, 60, 120],
heartrate = [100, 160, 190] with the default thresholds (z4Low = 165), the
classifier reports zero Z4 minutes and one Z3 minute, so the claimed
result (Z4 = 1 minute together with Z5 = 1 minute and all other zones 0)
is false: the 60 second interval at heart rate 160 falls below z4Low and
lands in Z3. -/
theorem C3_counterexample :
    computeZoneMinutesFromStreams ⟨some [0, 60, 120], some [100, 160, 190]⟩ DEFAULT_HR_ZONES
        = ⟨0, 0, 1, 0, 1, true⟩ ∧
      ¬ (computeZoneMinutesFromStreams ⟨some [0, 60, 120], some [100, 160, 190]⟩
          DEFAULT_HR_ZONES).z4Min = 1 := by
  constructor
  · norm_num [computeZoneMinutesFromStreams, zoneSecs, zoneSecsFrom, classifyBpm, addZone,
      DEFAULT_HR_ZONES, jsRound, qmax, Rat.floor_def']
  · norm_num [computeZoneMinutesFromStreams, zoneSecs, zoneSecsFrom, classifyBpm, addZone,
      DEFAULT_HR_ZONES, jsRound, qmax, Rat.floor_def']

/-- Claim C3 (amended): classification assigns each elapsed interval by
the heart rate at the later sample using descending threshold comparison;
on the stream time = [0, 60, 120], heartrate = [100, 160, 190] with
thresholds z2Low = 130, z3Low = 150, z4Low = 165, z5Low = 180 the
classifier returns Z3 = 1 minute and Z5 = 1 minute with all other zone
minutes 0 (heart rate 160 is below z4Low = 165, hence Z3 rather than the
Z4 stated by the claim). -/
theorem C3_amended :
    computeZoneMinutesFromStreams ⟨some [0, 60, 120], some [100, 160, 190]⟩ DEFAULT_HR_ZONES
        = ⟨0, 0, 1, 0, 1, true⟩ ∧
      ∀ zones bpm,
        (zones.z5Low ≤ bpm → classifyBpm zones bpm = .Z5) ∧
        (¬ zones.z5Low ≤ bpm → zones.z4Low ≤ bpm → classifyBpm zones bpm = .Z4) ∧
        (¬ zones.z5Low ≤ bpm → ¬ zones.z4Low ≤ bpm → zones.z3Low ≤ bpm →
          classifyBpm zones bpm = .Z3) ∧
        (¬ zones.z5Low ≤ bpm → ¬ zones.z4Low ≤ bpm → ¬ zones.z3Low ≤ bpm →
          zones.z2Low ≤ bpm → classifyBpm zones bpm = .Z2) ∧
        (¬ zones.z5Low ≤ bpm → ¬ zones.z4Low ≤ bpm → ¬ zones.z3Low ≤ bpm →
          ¬ zones.z2Low ≤ bpm → classifyBpm zones bpm = .Z1) := by
  constructor
  · norm_num [computeZoneMinutesFromStreams, zoneSecs, zoneSecsFrom, classifyBpm, addZone,
      DEFAULT_HR_ZONES, jsRound, qmax, Rat.floor_def']
  · intro zones bpm
    refine ⟨fun h5 => ?_, fun h5 h4 => ?_, fun h5 h4 h3 => ?_, fun h5 h4 h3 h2 => ?_,
      fun h5 h4 h3 h2 => ?_⟩ <;> simp [classifyBpm, *]

theorem C3_amended_witness : classifyBpm DEFAULT_HR_ZONES 190 = .Z5 :=
  (C3_amended.2 DEFAULT_HR_ZONES 190).1 (by decide)

-- Unzoned time policy (C4, C10) --------------------------------------------

theorem weekZoneTotals_eq_sums (l : List Session) :
    (weekZoneTotalsAdjustedToZ1 l).z1 = (l.map fun s => s.z1Min + getUnzonedMinutes s).sum ∧
    (weekZoneTotalsAdjustedToZ1 l).z2 = (l.map fun s => s.z2Min).sum ∧
    (weekZoneTotalsAdjustedToZ1 l).z3 = (l.map fun s => s.z3Min).sum ∧
    (weekZoneTotalsAdjustedToZ1 l).z4 = (l.map fun s => s.z4Min).sum ∧
    (weekZoneTotalsAdjustedToZ1 l).z5 = (l.map fun s => s.z5Min).sum := by
  induction l with
  | nil => simp [weekZoneTotalsAdjustedToZ1]
  | cons s rest ih =>
    obtain ⟨h1, h2, h3, h4, h5⟩ := ih
    refine ⟨?_, ?_, ?_, ?_, ?_⟩ <;>
      simp [weekZoneTotalsAdjustedToZ1, h1, h2, h3, h4, h5]

theorem session_totals_contribution (s : Session) :
    s.z1Min + getUnzonedMinutes s + s.z2Min + s.z3Min + s.z4Min + s.z5Min
      = max s.durationMin (getZonedMinutes s) := by
  rw [getUnzonedMinutes, qmax_eq_max]
  rcases le_total s.durationMin (getZonedMinutes s) with h | h
  · rw [max_eq_left (sub_nonpos.mpr h), max_eq_right h, getZonedMinutes]
    ring
  · rw [max_eq_right (sub_nonneg.mpr h), max_eq_left h, getZonedMinutes]
    ring

/-- Claim C4: for every session, unzoned minutes equal
max(0, durationMin - (z1Min + z2Min + z3Min + z4Min + z5Min)); in the
weekly zone totals the reported Z1 is the raw z1Min plus the unzoned
minutes while Z2 to Z5 are summed raw; a session with duration 90 and
z2 = 60 contributes adjusted Z1 = 30 and Z2 = 60. -/
theorem C4_unzoned_folds_into_z1 :
    (∀ s : Session, getUnzonedMinutes s
        = max 0 (s.durationMin - (s.z1Min + s.z2Min + s.z3Min + s.z4Min + s.z5Min))) ∧
    (∀ l : List Session,
        (weekZoneTotalsAdjustedToZ1 l).z1
            = (l.map fun s => s.z1Min + getUnzonedMinutes s).sum ∧
          (weekZoneTotalsAdjustedToZ1 l).z2 = (l.map fun s => s.z2Min).sum ∧
          (weekZoneTotalsAdjustedToZ1 l).z3 = (l.map fun s => s.z3Min).sum ∧
          (weekZoneTotalsAdjustedToZ1 l).z4 = (l.map fun s => s.z4Min).sum ∧
          (weekZoneTotalsAdjustedToZ1 l).z5 = (l.map fun s => s.z5Min).sum) ∧
      weekZoneTotalsAdjustedToZ1
          [normalizeSession
            ⟨none, some 0, none, some 90, none, some 60, none, none, none, none, none, none⟩]
        = ⟨30, 60, 0, 0, 0⟩ := by
  refine ⟨fun s => ?_, weekZoneTotals_eq_sums, ?_⟩
  · rw [getUnzonedMinutes, getZonedMinutes, qmax_eq_max]
  · norm_num [weekZoneTotalsAdjustedToZ1, normalizeSession, getUnzonedMinutes, getZonedMinutes,
      clampNonNeg, qmax, normalizeTypeToActivityType, strLower]

theorem sumWeekZoneTotals_eq (l : List Session) :
    sumWeekZoneTotals (weekZoneTotalsAdjustedToZ1 l)
      = (l.map fun s => max s.durationMin (getZonedMinutes s)).sum := by
  induction l with
  | nil => simp [weekZoneTotalsAdjustedToZ1, sumWeekZoneTotals]
  | cons s rest ih =>
    simp only [weekZoneTotalsAdjustedToZ1, sumWeekZoneTotals] at *
    rw [List.map_cons, List.sum_cons, ← ih, ← session_totals_contribution s]
    ring

/-- Claim C10: every session contributes
max(durationMin, z1Min + z2Min + z3Min + z4Min + z5Min) to the adjusted
weekly zone totals, and consequently the five weekly buckets sum to at
least the total recorded duration of any session list. -/
theorem C10_weekly_totals_cover_duration :
    (∀ s : Session,
        s.z1Min + getUnzonedMinutes s + s.z2Min + s.z3Min + s.z4Min + s.z5Min
          = max s.durationMin (getZonedMinutes s)) ∧
    ∀ l : List Session,
      sumWeekZoneTotals (weekZoneTotalsAdjustedToZ1 l)
          = (l.map fun s => max s.durationMin (getZonedMinutes s)).sum ∧
        (l.map fun s => s.durationMin).sum ≤ sumWeekZoneTotals (weekZoneTotalsAdjustedToZ1 l) := by
  refine ⟨session_totals_contribution, fun l => ⟨sumWeekZoneTotals_eq l, ?_⟩⟩
  rw [sumWeekZoneTotals_eq l]
  exact List.sum_le_sum fun s _ => le_max_left _ _

-- Week view sorting (C7) ---------------------------------------------------

theorem jsMergeGo_perm (cmp : Session → Session → Int) :
    ∀ (fuel : Nat) (xs ys : List Session), (jsMergeGo cmp fuel xs ys).Perm (xs ++ ys) := by
  intro fuel
  induction fuel with
  | zero => intro xs ys; simp [jsMergeGo]
  | succ fuel ih =>
    intro xs ys
    match xs, ys with
    | [], ys => simp [jsMergeGo]
    | x :: xs, [] => simp [jsMergeGo]
    | x :: xs, y :: ys =>
      simp only [jsMergeGo]
      split
      · exact (ih xs (y :: ys)).cons x
      · exact ((ih (x :: xs) ys).cons y).trans List.perm_middle.symm

theorem jsMerge_perm (cmp : Session → Session → Int) (xs ys : List Session) :
    (jsMerge cmp xs ys).Perm (xs ++ ys) :=
  jsMergeGo_perm cmp (xs.length + ys.length) xs ys

theorem mem_jsMergeGo {cmp : Session → Session → Int} {fuel : Nat} {xs ys : List Session}
    {z : Session} (hz : z ∈ jsMergeGo cmp fuel xs ys) : z ∈ xs ∨ z ∈ ys := by
  have := (jsMergeGo_perm cmp fuel xs ys).mem_iff.mp hz
  simpa using this

theorem jsSortGo_perm (cmp : Session → Session → Int) :
    ∀ (fuel : Nat) (l : List Session), l.length ≤ fuel → (jsSortGo cmp fuel l).Perm l := by
  intro fuel
  induction fuel with
  | zero => intro l _; simp [jsSortGo]
  | succ fuel ih =>
    intro l h
    match l with
    | [] => simp [jsSortGo]
    | [a] => simp [jsSortGo]
    | a :: b :: rest =>
      simp only [jsSortGo]
      have hL : (a :: b :: rest).length = rest.length + 2 := by simp
      have htake : ((a :: b :: rest).take ((a :: b :: rest).length / 2)).length ≤ fuel := by
        simp only [List.length_take, hL] at *
        omega
      have hdrop : ((a :: b :: rest).drop ((a :: b :: rest).length / 2)).length ≤ fuel := by
        simp only [List.length_drop, hL] at *
        omega
      refine (jsMerge_perm cmp _ _).trans ?_
      refine ((ih _ htake).append (ih _ hdrop)).trans ?_
      rw [List.take_append_drop]

theorem jsSort_perm (cmp : Session → Session → Int) (l : List Session) :
    (jsSort cmp l).Perm l :=
  jsSortGo_perm cmp l.length l (le_refl _)

theorem dateCmp_nonpos {a b : Session} : dateCmp a b ≤ 0 ↔ a.date < b.date := by
  rw [dateCmp]
  split
  · rename_i h; simpa using h
  · rename_i h; constructor
    · intro hc; omega
    · intro hc; exact absurd hc h

theorem jsMergeGo_pairwise :
    ∀ (fuel : Nat) (xs ys : List Session), xs.length + ys.length ≤ fuel →
      List.Pairwise (fun a b : Session => a.date ≤ b.date) xs →
      List.Pairwise (fun a b : Session => a.date ≤ b.date) ys →
      List.Pairwise (fun a b : Session => a.date ≤ b.date) (jsMergeGo dateCmp fuel xs ys) := by
  intro fuel
  induction fuel with
  | zero =>
    intro xs ys h _ _
    have hx : xs = [] := List.eq_nil_of_length_eq_zero (by omega)
    have hy : ys = [] := List.eq_nil_of_length_eq_zero (by omega)
    subst hx hy
    simp [jsMergeGo]
  | succ fuel ih =>
    intro xs ys h hx hy
    match xs, ys with
    | [], ys => simpa [jsMergeGo] using hy
    | x :: xs, [] => simpa [jsMergeGo] using hx
    | x :: xs, y :: ys =>
      rw [List.pairwise_cons] at hx hy
      simp only [jsMergeGo]
      split
      · rename_i hcmp
        have hxy : x.date < y.date := dateCmp_nonpos.mp hcmp
        rw [List.pairwise_cons]
        refine ⟨?_, ih xs (y :: ys) (by simp at h ⊢; omega) hx.2 (List.pairwise_cons.mpr hy)⟩
        intro z hz
        rcases mem_jsMergeGo hz with hz | hz
        · exact hx.1 z hz
        · rcases List.mem_cons.mp hz with rfl | hz
          · exact le_of_lt hxy
          · exact le_trans (le_of_lt hxy) (hy.1 z hz)
      · rename_i hcmp
        have hyx : y.date ≤ x.date := by
          rcases lt_or_le x.date y.date with hlt | hle
          · exact absurd (dateCmp_nonpos.mpr hlt) hcmp
          · exact hle
        rw [List.pairwise_cons]
        refine ⟨?_, ih (x :: xs) ys (by simp at h ⊢; omega) (List.pairwise_cons.mpr hx) hy.2⟩
        intro z hz
        rcases mem_jsMergeGo hz with hz | hz
        · rcases List.mem_cons.mp hz with rfl | hz
          · exact hyx
          · exact le_trans hyx (hx.1 z hz)
        · exact hy.1 z hz

theorem jsSortGo_pairwise :
    ∀ (fuel : Nat) (l : List Session), l.length ≤ fuel →
      List.Pairwise (fun a b : Session => a.date ≤ b.date) (jsSortGo dateCmp fuel l) := by
  intro fuel
  induction fuel with
  | zero =>
    intro l h
    have : l = [] := List.eq_nil_of_length_eq_zero (by omega)
    subst this
    simp [jsSortGo]
  | succ fuel ih =>
    intro l h
    match l with
    | [] => simp [jsSortGo]
    | [a] => simp [jsSortGo]
    | a :: b :: rest =>
      simp only [jsSortGo]
      have hL : (a :: b :: rest).length = rest.length + 2 := by simp
      have htake : ((a :: b :: rest).take ((a :: b :: rest).length / 2)).length ≤ fuel := by
        simp only [List.length_take, hL] at *
        omega
      have hdrop : ((a :: b :: rest).drop ((a :: b :: rest).length / 2)).length ≤ fuel := by
        simp only [List.length_drop, hL] at *
        omega
      rw [jsMerge]
      exact jsMergeGo_pairwise _ _ _ (le_refl _) (ih _ htake) (ih _ hdrop)

/-- Claim C7 counterexample: two sessions with the same date and distinct
ids come back from weekSessions in reversed order, so the sort is not
stable on ties as the claim states.  The comparator never returns 0: on a
tie it reports the left element greater and the merge emits the right
element first (observable engine sorts behave the same way on this
comparator). -/
theorem C7_counterexample :
    weekSessions
        [⟨"a", 0, .Run, 0, 0, 0, 0, 0, 0, "", some .manual, none⟩,
          ⟨"b", 0, .Run, 0, 0, 0, 0, 0, 0, "", some .manual, none⟩] 0
        = [⟨"b", 0, .Run, 0, 0, 0, 0, 0, 0, "", some .manual, none⟩,
          ⟨"a", 0, .Run, 0, 0, 0, 0, 0, 0, "", some .manual, none⟩] ∧
      weekSessions
        [⟨"a", 0, .Run, 0, 0, 0, 0, 0, 0, "", some .manual, none⟩,
          ⟨"b", 0, .Run, 0, 0, 0, 0, 0, 0, "", some .manual, none⟩] 0
        ≠ [⟨"a", 0, .Run, 0, 0, 0, 0, 0, 0, "", some .manual, none⟩,
          ⟨"b", 0, .Run, 0, 0, 0, 0, 0, 0, "", some .manual, none⟩] := by
  constructor
  · decide
  · decide

/-- Claim C7 (amended): the weekly aggregation selects exactly the
sessions with start at most date and date before start plus seven days
(start inclusive, end exclusive), and sorts the selected list by date
ascending; the sort is NOT stable on ties: the comparator never returns
0, so sessions with equal dates are not guaranteed to keep their original
relative order (in this model a tied pair comes out reversed). -/
theorem C7_amended (sessions : List Session) (ws : Int) :
    (weekSessions sessions ws).Perm
        (sessions.filter fun s => decide (withinWeek s.date ws)) ∧
      List.Pairwise (fun a b : Session => a.date ≤ b.date) (weekSessions sessions ws) ∧
      ∀ s, s ∈ weekSessions sessions ws ↔ s ∈ sessions ∧ ws ≤ s.date ∧ s.date < ws + 7 := by
  refine ⟨?_, ?_, ?_⟩
  · exact jsSort_perm dateCmp _
  · rw [weekSessions, jsSort]
    exact jsSortGo_pairwise _ _ (le_refl _)
  · intro s
    rw [weekSessions, (jsSort_perm dateCmp _).mem_iff, List.mem_filter]
    simp [withinWeek, addDaysISO, and_assoc]

theorem C7_amended_witness :
    (⟨"a", 1, .Run, 0, 0, 0, 0, 0, 0, "", some .manual, none⟩ : Session)
      ∈ weekSessions [⟨"a", 1, .Run, 0, 0, 0, 0, 0, 0, "", some .manual, none⟩] 0 :=
  ((C7_amended [⟨"a", 1, .Run, 0, 0, 0, 0, 0, 0, "", some .manual, none⟩] 0).2.2 _).mpr
    ⟨by decide, by decide, by decide⟩

-- Sync merge frame (C1) ----------------------------------------------------

/-- Claim C1: the merge retains, unchanged, every session whose source is
manual and every external session dated outside the synced window, and
replaces all other entries with the freshly fetched and classified set; a
second sync of the window that fetches no activities removes the prior
external sessions dated in the window while every manual session remains. -/
theorem C1_merge_frame (activities : List StravaActivity)
    (fetchStream : Int → Option StravaStreamsResponse) (zones : HrZones) (ws : Int)
    (prev : List Session) :
    (∀ p ∈ prev, p.source ≠ some Source.strava ∨ ¬ withinWeek p.date ws →
        p ∈ syncFromStravaForWeek activities fetchStream zones ws prev) ∧
    (∀ q ∈ syncFromStravaForWeek activities fetchStream zones ws prev,
        q ∈ syncMergedSessions activities fetchStream zones ∨
          (q ∈ prev ∧ (q.source ≠ some Source.strava ∨ ¬ withinWeek q.date ws))) ∧
    (syncFromStravaForWeek [] fetchStream zones ws prev
        = prev.filter fun p => decide (p.source ≠ some Source.strava ∨ ¬ withinWeek p.date ws)) ∧
    (∀ p ∈ prev, p.source = some Source.strava → withinWeek p.date ws →
        p ∉ syncFromStravaForWeek [] fetchStream zones ws prev) ∧
    (∀ p ∈ prev, p.source = some Source.manual →
        p ∈ syncFromStravaForWeek [] fetchStream zones ws prev) := by
  have hempty : syncFromStravaForWeek [] fetchStream zones ws prev
      = prev.filter fun p => decide (p.source ≠ some Source.strava ∨ ¬ withinWeek p.date ws) := by
    simp [syncFromStravaForWeek, syncMergedSessions]
  refine ⟨?_, ?_, hempty, ?_, ?_⟩
  · intro p hp hkeep
    rw [syncFromStravaForWeek]
    exact List.mem_append.mpr (Or.inr (List.mem_filter.mpr ⟨hp, decide_eq_true hkeep⟩))
  · intro q hq
    rcases List.mem_append.mp hq with hq | hq
    · exact Or.inl hq
    · obtain ⟨hmem, hpred⟩ := List.mem_filter.mp hq
      exact Or.inr ⟨hmem, of_decide_eq_true hpred⟩
  · intro p hp hsrc hwin hmem
    rw [hempty] at hmem
    obtain ⟨_, hpred⟩ := List.mem_filter.mp hmem
    rcases of_decide_eq_true hpred with h | h
    · exact h hsrc
    · exact h hwin
  · intro p hp hsrc
    rw [hempty]
    refine List.mem_filter.mpr ⟨hp, decide_eq_true (Or.inl ?_)⟩
    simp [hsrc]

theorem C1_merge_frame_witness :
    (⟨"m", 0, .Run, 0, 0, 0, 0, 0, 0, "", some .manual, none⟩ : Session)
      ∈ syncFromStravaForWeek [] (fun _ => none) DEFAULT_HR_ZONES 0
          [⟨"m", 0, .Run, 0, 0, 0, 0, 0, 0, "", some .manual, none⟩] :=
  (C1_merge_frame [] (fun _ => none) DEFAULT_HR_ZONES 0
      [⟨"m", 0, .Run, 0, 0, 0, 0, 0, 0, "", some .manual, none⟩]).2.2.2.2
    _ (by decide) (by decide)

-- Sync idempotence (C5) ----------------------------------------------------

theorem stravaBaseSession_fields (a : StravaActivity) :
    (stravaBaseSession a).id = "strava-" ++ toString a.id ∧
    (stravaBaseSession a).externalId = some a.id ∧
    (stravaBaseSession a).source = some Source.strava ∧
    (stravaBaseSession a).date = a.start_day ∧
    (stravaBaseSession a).z1Min = 0 ∧ (stravaBaseSession a).z2Min = 0 ∧
    (stravaBaseSession a).z3Min = 0 ∧ (stravaBaseSession a).z4Min = 0 ∧
    (stravaBaseSession a).z5Min = 0 := by
  refine ⟨rfl, rfl, ?_, rfl, ?_, ?_, ?_, ?_, ?_⟩ <;>
    simp [stravaBaseSession, normalizeSession, clampNonNeg, qmax]

theorem zoneJoin_proj (m : List (Int × ZoneComputation)) (s : Session) :
    (zoneJoin m s).id = s.id ∧ (zoneJoin m s).externalId = s.externalId ∧
    (zoneJoin m s).date = s.date ∧
    ((zoneJoin m s).source = some Source.strava ↔ s.source = some Source.strava) := by
  rw [zoneJoin]
  cases mapGet (s.externalId.getD 0) m with
  | none => simp
  | some z =>
    refine ⟨rfl, rfl, rfl, ?_⟩
    simp only [normalizeSession, withZoneOverride, Session.toRaw]
    split
    · rename_i h; simpa using h
    · rename_i h; simpa using h

theorem syncMergedSessions_shape (activities : List StravaActivity)
    (fetchStream : Int → Option StravaStreamsResponse) (zones : HrZones) :
    ∀ s ∈ syncMergedSessions activities fetchStream zones, ∃ a ∈ activities,
      s.id = "strava-" ++ toString a.id ∧ s.externalId = some a.id ∧
        s.source = some Source.strava ∧ s.date = a.start_day := by
  intro s hs
  rw [syncMergedSessions, List.map_map] at hs
  obtain ⟨a, ha, rfl⟩ := List.mem_map.mp hs
  obtain ⟨hid, hext, hsrc, hdate, _⟩ := stravaBaseSession_fields a
  obtain ⟨jid, jext, jdate, jsrc⟩ :=
    zoneJoin_proj (buildZoneMap fetchStream zones (selectedActivities activities))
      (stravaBaseSession a)
  refine ⟨a, ha, ?_, ?_, ?_, ?_⟩
  · rw [Function.comp_apply, jid, hid]
  · rw [Function.comp_apply, jext, hext]
  · rw [Function.comp_apply, jsrc, hsrc]
  · rw [Function.comp_apply, jdate, hdate]


theorem filter_stravaInWeek_of_kept (ws : Int) (l : List Session) :
    ((l.filter fun p => decide (p.source ≠ some Source.strava ∨ ¬ withinWeek p.date ws)).filter
        fun s => decide (stravaSessionInWeek ws s)) = [] := by
  induction l with
  | nil => simp
  | cons p l ih =>
    rw [List.filter_cons]
    split
    · rename_i hk
      rw [List.filter_cons]
      split
      · rename_i hP
        exfalso
        have hk' : p.source ≠ some Source.strava ∨ ¬ withinWeek p.date ws :=
          of_decide_eq_true hk
        have hP' : p.source = some Source.strava ∧ withinWeek p.date ws :=
          of_decide_eq_true hP
        rcases hk' with h | h
        · exact h hP'.1
        · exact h hP'.2
      · exact ih
    · exact ih

theorem filter_stravaInWeek_sync (activities : List StravaActivity)
    (fetchStream : Int → Option StravaStreamsResponse) (zones : HrZones) (ws : Int)
    (l : List Session) :
    ((syncFromStravaForWeek activities fetchStream zones ws l).filter
        fun s => decide (stravaSessionInWeek ws s))
      = ((syncMergedSessions activities fetchStream zones).filter
          fun s => decide (stravaSessionInWeek ws s)) := by
  rw [syncFromStravaForWeek, List.filter_append, filter_stravaInWeek_of_kept, List.append_nil]

theorem filter_manual_of_kept (ws : Int) (l : List Session) :
    ((l.filter fun p => decide (p.source ≠ some Source.strava ∨ ¬ withinWeek p.date ws)).filter
        fun s => decide (s.source = some Source.manual))
      = l.filter fun s => decide (s.source = some Source.manual) := by
  rw [List.filter_filter]
  apply List.filter_congr
  intro a _
  by_cases hm : a.source = some Source.manual
  · have hk : a.source ≠ some Source.strava ∨ ¬ withinWeek a.date ws := Or.inl (by simp [hm])
    simp [hm, hk]
  · simp [hm]

/-- Claim C5: running the sync twice for the same window with identical
fetched activities and identical stream results yields the same external
session subset for the window; the fresh sessions carry deterministically
derived ids (one per provider native id); manual sessions are untouched by
any number of sync calls. -/
theorem C5_sync_idempotent (activities : List StravaActivity)
    (fetchStream : Int → Option StravaStreamsResponse) (zones : HrZones) (ws : Int)
    (prev : List Session) :
    ((syncFromStravaForWeek activities fetchStream zones ws
          (syncFromStravaForWeek activities fetchStream zones ws prev)).filter
        fun s => decide (stravaSessionInWeek ws s))
      = ((syncFromStravaForWeek activities fetchStream zones ws prev).filter
          fun s => decide (stravaSessionInWeek ws s)) ∧
    ((syncFromStravaForWeek activities fetchStream zones ws prev).filter
        fun s => decide (s.source = some Source.manual))
      = (prev.filter fun s => decide (s.source = some Source.manual)) ∧
    ∀ s ∈ syncMergedSessions activities fetchStream zones, ∃ a ∈ activities,
      s.id = "strava-" ++ toString a.id ∧ s.externalId = some a.id ∧
        s.source = some Source.strava ∧ s.date = a.start_day := by
  refine ⟨?_, ?_, syncMergedSessions_shape activities fetchStream zones⟩
  · rw [filter_stravaInWeek_sync, filter_stravaInWeek_sync]
  · rw [syncFromStravaForWeek, List.filter_append]
    have hmerged : ((syncMergedSessions activities fetchStream zones).filter
        fun s => decide (s.source = some Source.manual)) = [] := by
      rw [List.filter_eq_nil_iff]
      intro s hs
      obtain ⟨a, _, _, _, hsrc, _⟩ := syncMergedSessions_shape activities fetchStream zones s hs
      simp [hsrc]
    rw [hmerged, List.nil_append, filter_manual_of_kept]

theorem C5_sync_idempotent_witness :
    ((syncFromStravaForWeek [] (fun _ => none) DEFAULT_HR_ZONES 0
          [⟨"m", 0, .Run, 0, 0, 0, 0, 0, 0, "", some .manual, none⟩]).filter
        fun s => decide (s.source = some Source.manual))
      = ([(⟨"m", 0, .Run, 0, 0, 0, 0, 0, 0, "", some .manual, none⟩ : Session)].filter
          fun s => decide (s.source = some Source.manual)) :=
  (C5_sync_idempotent [] (fun _ => none) DEFAULT_HR_ZONES 0
      [⟨"m", 0, .Run, 0, 0, 0, 0, 0, 0, "", some .manual, none⟩]).2.1

-- Per activity failure isolation (C6) --------------------------------------

theorem mapGet_append (k : Int) (xs ys : List (Int × ZoneComputation)) :
    mapGet k (xs ++ ys)
      = match mapGet k xs with
        | some v => some v
        | none => mapGet k ys := by
  induction xs with
  | nil => simp [mapGet]
  | cons e xs ih =>
    obtain ⟨k', v⟩ := e
    by_cases h : k = k'
    · simp [mapGet, h]
    · simp [mapGet, h, ih]

theorem mapGet_buildZoneMap_of_not_mem (fetchStream : Int → Option StravaStreamsResponse)
    (zones : HrZones) :
    ∀ (l : List StravaActivity) (k : Int), (∀ a ∈ l, a.id ≠ k) →
      mapGet k (buildZoneMap fetchStream zones l) = none := by
  intro l
  induction l with
  | nil => intro k _; simp [buildZoneMap, mapGet]
  | cons a l ih =>
    intro k hk
    rw [buildZoneMap, mapGet_append, ih k (fun b hb => hk b (List.mem_cons_of_mem a hb))]
    cases hfetch : fetchStream a.id with
    | none => simp [mapGet]
    | some st =>
      by_cases hz : (computeZoneMinutesFromStreams st zones).hasStreams
      · have hne : ¬ k = a.id := fun h => (hk a (List.mem_cons_self a l)) h.symm
        simp [hz, mapGet, hne]
      · simp [hz, mapGet]

theorem mapGet_buildZoneMap (fetchStream : Int → Option StravaStreamsResponse)
    (zones : HrZones) :
    ∀ l : List StravaActivity, (l.map (·.id)).Nodup →
      ∀ a ∈ l, mapGet a.id (buildZoneMap fetchStream zones l)
        = streamZonesFor fetchStream zones a := by
  intro l
  induction l with
  | nil => intro _ a ha; simp at ha
  | cons b l ih =>
    intro hnd a ha
    rw [List.map_cons, List.nodup_cons] at hnd
    obtain ⟨hb, hnd⟩ := hnd
    rw [buildZoneMap, mapGet_append]
    rcases List.mem_cons.mp ha with rfl | ha
    · rw [mapGet_buildZoneMap_of_not_mem fetchStream zones l a.id
        (fun c hc hcid => hb (hcid ▸ List.mem_map_of_mem (·.id) hc))]
      rw [streamZonesFor]
      cases hfetch : fetchStream a.id with
      | none => simp [mapGet]
      | some st =>
        by_cases hz : (computeZoneMinutesFromStreams st zones).hasStreams
        · simp [hz, mapGet]
        · simp [hz, mapGet]
    · have hane : a.id ≠ b.id := fun he => hb (he ▸ List.mem_map_of_mem (·.id) ha)
      rw [ih hnd a ha]
      cases hsf : streamZonesFor fetchStream zones a with
      | some v => rfl
      | none =>
        cases hfetch : fetchStream b.id with
        | none => simp [mapGet]
        | some st =>
          by_cases hz : (computeZoneMinutesFromStreams st zones).hasStreams
          · simp [hz, mapGet, hane]
          · simp [hz, mapGet]

theorem qmax_zero_nonneg (x : ℚ) : 0 ≤ qmax 0 x := by
  rw [qmax_eq_max]
  exact le_max_left 0 x

theorem addZone_nonneg {acc : ZoneSecs} {dt : ℚ} (hdt : 0 ≤ dt) (h1 : 0 ≤ acc.z1)
    (h2 : 0 ≤ acc.z2) (h3 : 0 ≤ acc.z3) (h4 : 0 ≤ acc.z4) (h5 : 0 ≤ acc.z5) (c : Zone) :
    0 ≤ (addZone c dt acc).z1 ∧ 0 ≤ (addZone c dt acc).z2 ∧ 0 ≤ (addZone c dt acc).z3 ∧
      0 ≤ (addZone c dt acc).z4 ∧ 0 ≤ (addZone c dt acc).z5 := by
  cases c <;> simp only [addZone] <;>
    first
    | exact ⟨add_nonneg h1 hdt, h2, h3, h4, h5⟩
    | exact ⟨h1, add_nonneg h2 hdt, h3, h4, h5⟩
    | exact ⟨h1, h2, add_nonneg h3 hdt, h4, h5⟩
    | exact ⟨h1, h2, h3, add_nonneg h4 hdt, h5⟩
    | exact ⟨h1, h2, h3, h4, add_nonneg h5 hdt⟩

theorem zoneSecsFrom_nonneg (zones : HrZones) :
    ∀ (ts bs : List ℚ) (tprev : ℚ),
      0 ≤ (zoneSecsFrom zones tprev ts bs).z1 ∧ 0 ≤ (zoneSecsFrom zones tprev ts bs).z2 ∧
        0 ≤ (zoneSecsFrom zones tprev ts bs).z3 ∧ 0 ≤ (zoneSecsFrom zones tprev ts bs).z4 ∧
        0 ≤ (zoneSecsFrom zones tprev ts bs).z5 := by
  intro ts
  induction ts with
  | nil => intro bs tprev; simp [zoneSecsFrom]
  | cons t ts ih =>
    intro bs tprev
    cases bs with
    | nil => simp [zoneSecsFrom]
    | cons b bs =>
      obtain ⟨h1, h2, h3, h4, h5⟩ := ih bs t
      rw [zoneSecsFrom]
      exact addZone_nonneg (qmax_zero_nonneg (t - tprev)) h1 h2 h3 h4 h5 _

theorem zoneSecs_nonneg (zones : HrZones) (time hr : List ℚ) :
    0 ≤ (zoneSecs zones time hr).z1 ∧ 0 ≤ (zoneSecs zones time hr).z2 ∧
      0 ≤ (zoneSecs zones time hr).z3 ∧ 0 ≤ (zoneSecs zones time hr).z4 ∧
      0 ≤ (zoneSecs zones time hr).z5 := by
  match time, hr with
  | [], _ => simp [zoneSecs]
  | _ :: _, [] => simp [zoneSecs]
  | t0 :: ts, _ :: bs => exact zoneSecsFrom_nonneg zones ts bs t0

theorem computeZoneMinutesFromStreams_some (time hr : List ℚ) (zones : HrZones) :
    computeZoneMinutesFromStreams ⟨some time, some hr⟩ zones
      = if hr.length < 2 ∨ time.length < 2 ∨ hr.length ≠ time.length then
          ⟨0, 0, 0, 0, 0, false⟩
        else
          ⟨jsRound ((zoneSecs zones time hr).z1 / 60), jsRound ((zoneSecs zones time hr).z2 / 60),
            jsRound ((zoneSecs zones time hr).z3 / 60), jsRound ((zoneSecs zones time hr).z4 / 60),
            jsRound ((zoneSecs zones time hr).z5 / 60), true⟩ := rfl

theorem computeZone_nonneg (st : StravaStreamsResponse) (zones : HrZones) :
    0 ≤ (computeZoneMinutesFromStreams st zones).z1Min ∧
      0 ≤ (computeZoneMinutesFromStreams st zones).z2Min ∧
      0 ≤ (computeZoneMinutesFromStreams st zones).z3Min ∧
      0 ≤ (computeZoneMinutesFromStreams st zones).z4Min ∧
      0 ≤ (computeZoneMinutesFromStreams st zones).z5Min := by
  obtain ⟨time?, hr?⟩ := st
  cases hr? with
  | none => simp [computeZoneMinutesFromStreams]
  | some hr =>
    cases time? with
    | none => simp [computeZoneMinutesFromStreams]
    | some time =>
      rw [computeZoneMinutesFromStreams_some]
      split
      · simp
      · obtain ⟨h1, h2, h3, h4, h5⟩ := zoneSecs_nonneg zones time hr
        exact ⟨jsRound_nonneg (div_nonneg h1 (by norm_num)),
          jsRound_nonneg (div_nonneg h2 (by norm_num)),
          jsRound_nonneg (div_nonneg h3 (by norm_num)),
          jsRound_nonneg (div_nonneg h4 (by norm_num)),
          jsRound_nonneg (div_nonneg h5 (by norm_num))⟩

theorem zoneJoin_of_none {m : List (Int × ZoneComputation)} {s : Session}
    (h : mapGet (s.externalId.getD 0) m = none) : zoneJoin m s = s := by
  rw [zoneJoin, h]

theorem zoneJoin_of_some {m : List (Int × ZoneComputation)} {s : Session}
    {z : ZoneComputation} (h : mapGet (s.externalId.getD 0) m = some z)
    (hz1 : 0 ≤ z.z1Min) (hz2 : 0 ≤ z.z2Min) (hz3 : 0 ≤ z.z3Min) (hz4 : 0 ≤ z.z4Min)
    (hz5 : 0 ≤ z.z5Min) :
    (zoneJoin m s).z1Min = (z.z1Min : ℚ) ∧ (zoneJoin m s).z2Min = (z.z2Min : ℚ) ∧
      (zoneJoin m s).z3Min = (z.z3Min : ℚ) ∧ (zoneJoin m s).z4Min = (z.z4Min : ℚ) ∧
      (zoneJoin m s).z5Min = (z.z5Min : ℚ) := by
  rw [zoneJoin, h]
  simp only [normalizeSession, withZoneOverride, Session.toRaw, Option.getD_some, clampNonNeg,
    qmax_eq_max]
  exact ⟨max_eq_right (by exact_mod_cast hz1), max_eq_right (by exact_mod_cast hz2),
    max_eq_right (by exact_mod_cast hz3), max_eq_right (by exact_mod_cast hz4),
    max_eq_right (by exact_mod_cast hz5)⟩

/-- Claim C6: during a sync batch a failure fetching or classifying one
selected activity is isolated: provided the batch carries distinct native
ids, the session produced for a failing activity keeps zero zone minutes
and every non failing selected activity still receives its classified
zone minutes, whatever the other activities do (the fetch outcome function
ranges over every possible subset of failures), and the sync function is
total, so no error reaches the caller. -/
theorem C6_per_activity_failure_isolated (activities : List StravaActivity)
    (fetchStream : Int → Option StravaStreamsResponse) (zones : HrZones)
    (hnd : (activities.map (·.id)).Nodup) :
    ∀ a ∈ selectedActivities activities,
      ∀ s ∈ syncMergedSessions activities fetchStream zones, s.externalId = some a.id →
        (fetchStream a.id = none →
          s.z1Min = 0 ∧ s.z2Min = 0 ∧ s.z3Min = 0 ∧ s.z4Min = 0 ∧ s.z5Min = 0) ∧
        ∀ st, fetchStream a.id = some st →
          (computeZoneMinutesFromStreams st zones).hasStreams = true →
            s.z1Min = ((computeZoneMinutesFromStreams st zones).z1Min : ℚ) ∧
              s.z2Min = ((computeZoneMinutesFromStreams st zones).z2Min : ℚ) ∧
              s.z3Min = ((computeZoneMinutesFromStreams st zones).z3Min : ℚ) ∧
              s.z4Min = ((computeZoneMinutesFromStreams st zones).z4Min : ℚ) ∧
              s.z5Min = ((computeZoneMinutesFromStreams st zones).z5Min : ℚ) := by
  intro a hasel s hs hsext
  have hsubsel : List.Sublist (selectedActivities activities) activities :=
    (List.take_sublist _ _).trans (List.filter_sublist _)
  rw [syncMergedSessions, List.map_map] at hs
  obtain ⟨a', ha', heq⟩ := List.mem_map.mp hs
  have hext' : s.externalId = some a'.id := by
    rw [← heq, Function.comp_apply,
      (zoneJoin_proj (buildZoneMap fetchStream zones (selectedActivities activities))
        (stravaBaseSession a')).2.1,
      (stravaBaseSession_fields a').2.1]
  have haa : a' = a :=
    List.inj_on_of_nodup_map hnd ha' (hsubsel.subset hasel)
      (Option.some.inj (hext'.symm.trans hsext))
  subst haa
  have hndsel : ((selectedActivities activities).map (·.id)).Nodup :=
    hnd.sublist (List.Sublist.map (·.id) hsubsel)
  have hget := mapGet_buildZoneMap fetchStream zones (selectedActivities activities) hndsel
    a' hasel
  have hgetD : (stravaBaseSession a').externalId.getD 0 = a'.id := by
    rw [(stravaBaseSession_fields a').2.1]
    rfl
  constructor
  · intro hfail
    have hnone : mapGet ((stravaBaseSession a').externalId.getD 0)
        (buildZoneMap fetchStream zones (selectedActivities activities)) = none := by
      rw [hgetD, hget, streamZonesFor, hfail]
    obtain ⟨_, _, _, _, hz1, hz2, hz3, hz4, hz5⟩ := stravaBaseSession_fields a'
    rw [← heq, Function.comp_apply, zoneJoin_of_none hnone]
    exact ⟨hz1, hz2, hz3, hz4, hz5⟩
  · intro st hst hhas
    have hsome : mapGet ((stravaBaseSession a').externalId.getD 0)
        (buildZoneMap fetchStream zones (selectedActivities activities))
          = some (computeZoneMinutesFromStreams st zones) := by
      rw [hgetD, hget, streamZonesFor, hst]
      simp [hhas]
    obtain ⟨h1, h2, h3, h4, h5⟩ := computeZone_nonneg st zones
    rw [← heq, Function.comp_apply]
    exact zoneJoin_of_some hsome h1 h2 h3 h4 h5

theorem C6_per_activity_failure_isolated_witness :
    ((zoneJoin (buildZoneMap demoFetch DEFAULT_HR_ZONES
          (selectedActivities [demoActivityA, demoActivityB])) ∘ stravaBaseSession)
        demoActivityA).z1Min = 0 ∧
      ((zoneJoin (buildZoneMap demoFetch DEFAULT_HR_ZONES
            (selectedActivities [demoActivityA, demoActivityB])) ∘ stravaBaseSession)
          demoActivityA).z2Min = 0 ∧
      ((zoneJoin (buildZoneMap demoFetch DEFAULT_HR_ZONES
            (selectedActivities [demoActivityA, demoActivityB])) ∘ stravaBaseSession)
          demoActivityA).z3Min = 0 ∧
      ((zoneJoin (buildZoneMap demoFetch DEFAULT_HR_ZONES
            (selectedActivities [demoActivityA, demoActivityB])) ∘ stravaBaseSession)
          demoActivityA).z4Min = 0 ∧
      ((zoneJoin (buildZoneMap demoFetch DEFAULT_HR_ZONES
            (selectedActivities [demoActivityA, demoActivityB])) ∘ stravaBaseSession)
          demoActivityA).z5Min = 0 :=
  (C6_per_activity_failure_isolated [demoActivityA, demoActivityB] demoFetch DEFAULT_HR_ZONES
      (by decide) demoActivityA (by decide) _
      (by rw [syncMergedSessions, List.map_map]
          exact List.mem_map.mpr ⟨demoActivityA, by decide, rfl⟩)
      (by rw [Function.comp_apply,
            (zoneJoin_proj _ (stravaBaseSession demoActivityA)).2.1,
            (stravaBaseSession_fields demoActivityA).2.1])).1
    rfl

-- Normalizer invariant (C8) ------------------------------------------------

/-- Claim C8 counterexample: the normalizer does not enforce the claimed
iff invariant.  On the raw input with source manual and externalId 123 the
output keeps externalId set while its source is manual, so externalId is
present without the source being external. -/
theorem C8_counterexample :
    (normalizeSession ⟨none, none, none, none, none, none, none, none, none, none,
          some Source.manual, some 123⟩).source ≠ some Source.strava ∧
      (normalizeSession ⟨none, none, none, none, none, none, none, none, none, none,
          some Source.manual, some 123⟩).externalId = some 123 := by
  constructor
  · decide
  · decide

/-- Claim C8 (amended): the normalizer passes externalId through unchanged
and sets the source tag to external exactly when the raw input carries the
external tag, independently of externalId, so the iff invariant is not
enforced on arbitrary raw input; every session produced by the sync
pipeline does satisfy it (source external and externalId present). -/
theorem C8_amended :
    (∀ raw : RawSession, (normalizeSession raw).externalId = raw.externalId ∧
        ((normalizeSession raw).source = some Source.strava ↔
          raw.source = some Source.strava)) ∧
    ∀ (activities : List StravaActivity) (fetchStream : Int → Option StravaStreamsResponse)
        (zones : HrZones), ∀ s ∈ syncMergedSessions activities fetchStream zones,
      s.source = some Source.strava ∧ s.externalId.isSome = true := by
  constructor
  · intro raw
    refine ⟨rfl, ?_⟩
    simp only [normalizeSession]
    split
    · rename_i h; simp [h]
    · rename_i h; simp [h]
  · intro activities fetchStream zones s hs
    obtain ⟨a, _, _, hext, hsrc, _⟩ :=
      syncMergedSessions_shape activities fetchStream zones s hs
    exact ⟨hsrc, by rw [hext]; rfl⟩

theorem C8_amended_witness :
    ((zoneJoin (buildZoneMap demoFetch DEFAULT_HR_ZONES (selectedActivities [demoActivityA]))
          ∘ stravaBaseSession) demoActivityA).source = some Source.strava :=
  (C8_amended.2 [demoActivityA] demoFetch DEFAULT_HR_ZONES _
      (by rw [syncMergedSessions, List.map_map]
          exact List.mem_map.mpr ⟨demoActivityA, by decide, rfl⟩)).1

-- Export and import round trip (C9) ----------------------------------------

theorem normalizeTypeToActivityType_roundtrip (t : ActivityType) :
    normalizeTypeToActivityType (activityTypeToString t) = t := by
  cases t <;> decide

theorem normalizeSession_toRaw (s : Session) (h : IsNormalizedSession s) :
    normalizeSession s.toRaw = s := by
  obtain ⟨hd, h1, h2, h3, h4, h5, hsome⟩ := h
  have hty := normalizeTypeToActivityType_roundtrip s.type
  have hsrc : (if s.source = some Source.strava then some Source.strava
      else some Source.manual) = s.source := by
    cases hs : s.source with
    | none => rw [hs] at hsome; simp at hsome
    | some v => cases v <;> simp
  cases s with
  | mk id date ty dur z1 z2 z3 z4 z5 notes src ext =>
    simp only [Session.toRaw, normalizeSession, Option.getD_some, clampNonNeg, qmax_eq_max,
      Session.mk.injEq] at *
    simp [hty, hsrc, max_eq_right hd, max_eq_right h1, max_eq_right h2, max_eq_right h3,
      max_eq_right h4, max_eq_right h5]

/-- Claim C9: exporting the persisted state and importing the exported
document reproduces the session collection exactly (same ids and field
values; ids would be regenerated only for raw entries lacking one, and
every in app session carries an id), and import is a total function that
degrades field by field: importing an empty or malformed document keeps
the current state. -/
theorem C9_export_import_roundtrip (st cur : AppState)
    (h : ∀ s ∈ st.sessions, IsNormalizedSession s) :
    importData (exportData st) cur = st ∧
      ∀ cur2 : AppState, importData ⟨none, none, none, none⟩ cur2 = cur2 := by
  constructor
  · have hsess : (st.sessions.map Session.toRaw).map normalizeSession = st.sessions := by
      rw [List.map_map]
      have hcongr : ∀ s ∈ st.sessions, (normalizeSession ∘ Session.toRaw) s = id s :=
        fun s hs => normalizeSession_toRaw s (h s hs)
      rw [List.map_congr_left hcongr, List.map_id]
    obtain ⟨ws, sessions, zones, strava⟩ := st
    obtain ⟨z2, z3, z4, z5⟩ := zones
    obtain ⟨conn, name⟩ := strava
    simp only [exportData, importData, HrZones.toRaw, Option.getD_some] at *
    simp [hsess]
  · intro cur2
    obtain ⟨ws, sessions, zones, strava⟩ := cur2
    simp [importData]

theorem C9_export_import_roundtrip_witness :
    importData
        (exportData ⟨0, [⟨"m", 0, .Run, 60, 0, 60, 0, 0, 0, "", some .manual, none⟩],
          DEFAULT_HR_ZONES, ⟨false, none⟩⟩)
        ⟨3, [], DEFAULT_HR_ZONES, ⟨false, none⟩⟩
      = ⟨0, [⟨"m", 0, .Run, 60, 0, 60, 0, 0, 0, "", some .manual, none⟩],
          DEFAULT_HR_ZONES, ⟨false, none⟩⟩ :=
  (C9_export_import_roundtrip
      ⟨0, [⟨"m", 0, .Run, 60, 0, 60, 0, 0, 0, "", some .manual, none⟩],
        DEFAULT_HR_ZONES, ⟨false, none⟩⟩
      ⟨3, [], DEFAULT_HR_ZONES, ⟨false, none⟩⟩ (by decide)).1
